import Mathlib

/-!
Verification development for the `citation-docket` repository.

Python strings are embedded as `List Char` (`Str`); Python functions from
`citation_utils/dockets/models/docket_model.py`,
`citation_docket/regexes/models/docket_model.py` and
`citation_docket/regexes/constructed_am.py` are translated into executable
Lean definitions.  Pieces of the repository that are referenced but not
present under `src/` (the `DocketCategory` enumeration, `gr_prefix_clean`,
`Num.AM.allowed`, `Constructor.detect`) and external collaborators
(`is_eq`, date parsing) are modelled from the specification and are marked
as such in their doc comments.
-/

/-- Python strings are modelled as lists of characters. -/
abbrev Str := List Char

/-- Coercion from Lean string literals to the `Str` embedding. -/
def str (s : String) : Str := s.data

/-- Python `\s` / `str.isspace` for the ASCII range: space, tab, newline,
carriage return, vertical tab, form feed. -/
def pySpace (c : Char) : Bool :=
  c = ' ' || c = '\t' || c = '\n' || c = '\r' || c = '\x0b' || c = '\x0c'

/-- Python `text.split(sep)[0] if sep in text else None` for a non-empty
separator `sep`: the part of `text` before the first occurrence of `sep`,
or `none` when `sep` does not occur in `text`. -/
def pySplitBefore : Str → Str → Option Str
  | sep, [] => if sep.isPrefixOf ([] : Str) then some [] else none
  | sep, c :: rest =>
    if sep.isPrefixOf (c :: rest) then some []
    else
      match pySplitBefore sep rest with
      | some pre => some (c :: pre)
      | none => none

/-- Inner helper of `Docket.first_id` (`docket_model.py`):
`text.split(char)[0] if char in text else None`. -/
def first_exists (char : Str) (text : Str) : Option Str :=
  pySplitBefore char text

/-- The ordered separator list of `Docket.first_id`:
`["/", ",", ";", " and ", " AND ", "&"]`. -/
def docketSeparators : List Str :=
  [str "/", str ",", str ";", str " and ", str " AND ", str "&"]

/-- Loop body of `Docket.first_id`: `if res := first_exists(char, self.ids):
return res` — a `None` result or an empty-string result is falsy, so the
scan falls through to the next separator. -/
def firstIdScan : List Str → Str → Str
  | [], ids => ids
  | char :: rest, ids =>
    match first_exists char ids with
    | some res => if res = [] then firstIdScan rest ids else res
    | none => firstIdScan rest ids

/-- `Docket.first_id` (`docket_model.py`): scan the fixed separator list and
return the first truthy split prefix, falling back to the whole `ids`. -/
def first_id (ids : Str) : Str :=
  firstIdScan docketSeparators ids

/-- Modelled from the spec: `gr_prefix_clean` lives in the repository module
`gr_clean`, which is not under `src/`.  Per the spec it strips a residual
"No."/"Nos." prefix fragment left over after splitting (the marker word, a
period or whitespace, and following spaces) and yields a falsy value when no
such residual prefix is present.  Helper: the text after a case-insensitive
"Nos"/"No" marker, when the text starts with one. -/
def noMarkerRest (s : Str) : Option Str :=
  if (str "nos").isPrefixOf (s.map Char.toLower) then some (s.drop 3)
  else if (str "no").isPrefixOf (s.map Char.toLower) then some (s.drop 2)
  else none

/-- Modelled from the spec: `gr_prefix_clean` (module `gr_clean`, not under
`src/`) — strips a residual "No."/"Nos." docket-number marker from the front
of an id (requiring a period or whitespace right after the marker word, so
ids such as "no-separator-id" are untouched) and returns the remainder;
returns the empty string (falsy) when there is nothing to strip. -/
def gr_prefix_clean (x : Str) : Str :=
  match noMarkerRest x with
  | none => []
  | some rest =>
    match rest with
    | [] => []
    | c :: _ =>
      if c = '.' then (rest.drop 1).dropWhile pySpace
      else if pySpace c then rest.dropWhile pySpace
      else []

/-- Body of `Docket.serial_text` after the walrus bindings: `if x: if
adjust := gr_prefix_clean(x): return adjust` then `return x`. -/
def serialAdjust (x : Str) : Str :=
  if x = [] then x
  else if gr_prefix_clean x = [] then x
  else gr_prefix_clean x

/-- `Docket.serial_text` (`docket_model.py`): `x := self.first_id or
self.ids` (Python `or`: the first truthy operand), then `serialAdjust`. -/
def serial_text (ids : Str) : Str :=
  serialAdjust (if first_id ids = [] then ids else first_id ids)

/-- Modelled from the spec: the `DocketCategory` enumeration (module
`docket_category`, not under `src/`): fixed categories, each with a short
acronym (`name`) and a canonical long label (`value`). -/
inductive DocketCategory
  | AM
  | AC
  | GR
  | BM
  | JIB
  | OCA
  | PET
  | UDK
deriving DecidableEq

/-- The short acronym of a category (the Python enum member name). -/
def DocketCategory.name : DocketCategory → Str
  | .AM => str "AM"
  | .AC => str "AC"
  | .GR => str "GR"
  | .BM => str "BM"
  | .JIB => str "JIB"
  | .OCA => str "OCA"
  | .PET => str "PET"
  | .UDK => str "UDK"

/-- The canonical long label of a category (the Python enum member value). -/
def DocketCategory.value : DocketCategory → Str
  | .AM => str "Administrative Matter"
  | .AC => str "Administrative Case"
  | .GR => str "General Register"
  | .BM => str "Bar Matter"
  | .JIB => str "Judicial Integrity Board"
  | .OCA => str "Office of the Court Administrator"
  | .PET => str "Presidential Electoral Tribunal"
  | .UDK => str "Undocketed"

/-- All members of the enumeration. -/
def DocketCategory.all : List DocketCategory :=
  [.AM, .AC, .GR, .BM, .JIB, .OCA, .PET, .UDK]

/-- Python `datetime.date`: year, month, day. -/
structure PyDate where
  year : Nat
  month : Nat
  day : Nat
deriving DecidableEq

/-- Gregorian leap-year rule, as in Python `datetime`. -/
def isLeapYear (y : Nat) : Bool :=
  y % 4 == 0 && (y % 100 != 0 || y % 400 == 0)

/-- Number of days of month `m` in year `y`. -/
def daysInMonth (y m : Nat) : Nat :=
  if m == 2 then (if isLeapYear y then 29 else 28)
  else if m == 4 || m == 6 || m == 9 || m == 11 then 30
  else 31

/-- Validity of a calendar date, as enforced by the Python `datetime.date`
constructor (years 1 to 9999). -/
def validDate (y m d : Nat) : Bool :=
  decide (1 ≤ y ∧ y ≤ 9999 ∧ 1 ≤ m ∧ m ≤ 12 ∧ 1 ≤ d ∧ d ≤ daysInMonth y m)

/-- Two-digit zero-padded decimal rendering. -/
def pad2 (n : Nat) : Str :=
  [Nat.digitChar (n / 10 % 10), Nat.digitChar (n % 10)]

/-- Four-digit zero-padded decimal rendering. -/
def pad4 (n : Nat) : Str :=
  [Nat.digitChar (n / 1000 % 10), Nat.digitChar (n / 100 % 10),
   Nat.digitChar (n / 10 % 10), Nat.digitChar (n % 10)]

/-- Python `date.isoformat()`: `YYYY-MM-DD`. -/
def isoFormat (d : PyDate) : Str :=
  pad4 d.year ++ '-' :: pad2 d.month ++ '-' :: pad2 d.day

/-- Normalization underlying the loose text comparison: strip all whitespace
and lowercase. -/
def looseNorm (s : Str) : Str :=
  (s.filter (fun c => !pySpace c)).map Char.toLower

/-- Modelled from the spec: the external `is_eq` collaborator
(`loose_text_equal`) — case/whitespace-insensitive string equality. -/
def is_eq (a b : Str) : Bool :=
  looseNorm a == looseNorm b

/-- The validated `Docket` record (`citation_utils` model): `context`,
`category`, `ids`, `docket_date`. -/
structure Docket where
  context : Str
  category : DocketCategory
  ids : Str
  docket_date : PyDate
deriving DecidableEq

/-- `Docket.__eq__` (`citation_utils` model): `all([is_eq(category.name,
other.category.name), is_eq(first_id, other.first_id),
is_eq(docket_date.isoformat(), other.docket_date.isoformat())])`. -/
def docketEq (a b : Docket) : Bool :=
  is_eq a.category.name b.category.name &&
  is_eq (first_id a.ids) (first_id b.ids) &&
  is_eq (isoFormat a.docket_date) (isoFormat b.docket_date)

deriving instance DecidableEq for Except

/-- Error taxonomy of record construction. -/
inductive DocketError
  | validation
  | missingField
  | keyLookup
  | dateParse
deriving DecidableEq

/-- Pydantic enum-field validation: an input string is accepted exactly when
it is the `value` of some enumeration member (`use_enum_values=True`). -/
def parseCategoryValue (s : Str) : Option DocketCategory :=
  DocketCategory.all.find? (fun k => k.value == s)

/-- Pydantic construction of a `Docket` from raw field inputs: the category
string must be a recognized enumeration value and the date must be a valid
calendar date; `context` and `ids` are plain `str` fields with no
constraints (`Field(...)` only marks them required). -/
def mkDocket (context category ids : Str) (y m d : Nat) :
    Except DocketError Docket :=
  match parseCategoryValue category with
  | none => Except.error DocketError.validation
  | some cat =>
    if validDate y m d then Except.ok ⟨context, cat, ids, ⟨y, m, d⟩⟩
    else Except.error DocketError.validation

/-- Uppercase a string, Python `str.upper`. -/
def upperStr (s : Str) : Str := s.map Char.toUpper

/-- Lowercase a string, Python `str.lower`. -/
def lowerStr (s : Str) : Str := s.map Char.toLower

/-- Lookup of an enumeration member by name, Python
`DocketCategory[tag]`. -/
def categoryByName (s : Str) : Option DocketCategory :=
  DocketCategory.all.find? (fun k => k.name == s)

/-- Decimal digits to a natural number, accumulator form. -/
def natOfDigitsAux : Nat → Str → Nat
  | acc, [] => acc
  | acc, c :: rest => natOfDigitsAux (10 * acc + (c.toNat - 48)) rest

/-- Decimal digits to a natural number. -/
def natOfDigits (s : Str) : Nat := natOfDigitsAux 0 s

/-- Month names recognized by the modelled date parsing, full names before
abbreviations, all compared case-insensitively. -/
def monthNames : List (Str × Nat) :=
  [(str "january", 1), (str "february", 2), (str "march", 3),
   (str "april", 4), (str "may", 5), (str "june", 6), (str "july", 7),
   (str "august", 8), (str "september", 9), (str "october", 10),
   (str "november", 11), (str "december", 12),
   (str "jan", 1), (str "feb", 2), (str "mar", 3), (str "apr", 4),
   (str "jun", 6), (str "jul", 7), (str "aug", 8), (str "sept", 9),
   (str "sep", 9), (str "oct", 10), (str "nov", 11), (str "dec", 12)]

/-- First month name that starts the given text, with the remaining text. -/
def monthScan : List (Str × Nat) → Str → Option (Nat × Str)
  | [], _ => none
  | (nm, m) :: rest, s =>
    if nm.isPrefixOf (lowerStr s) then some (m, s.drop nm.length)
    else monthScan rest s

/-- Modelled from the spec: parsing of a leading `Month D, YYYY` /
`Mon D, YYYY` date out of a text, returning the date and the remaining
text.  This models the external date collaborators (dateutil parsing and
`find_date_after`) on the date shapes exercised by the repository. -/
def parseDatePrefix (s : Str) : Option (PyDate × Str) :=
  match monthScan monthNames s with
  | none => none
  | some (m, r1) =>
    let r2 := r1.dropWhile pySpace
    let ds := r2.takeWhile Char.isDigit
    if ds.isEmpty || 2 < ds.length then none
    else
      let d := natOfDigits ds
      let r3 := (r2.drop ds.length).dropWhile pySpace
      let r4 := match r3 with
        | ',' :: t => t.dropWhile pySpace
        | _ => r3
      let ys := r4.takeWhile Char.isDigit
      if ys.length == 4 then
        let y := natOfDigits ys
        if validDate y m d then some (⟨y, m, d⟩, r4.drop 4) else none
      else none

/-- Modelled from the spec: the external dateutil `parse(...).date()` used by
`Docket.from_data` on a raw date string — the whole string must be one date
expression. -/
def parse_date (s : Str) : Option PyDate :=
  match parseDatePrefix (s.dropWhile pySpace) with
  | some (d, rest) => if rest.dropWhile pySpace = [] then some d else none
  | none => none

/-- Input mapping of `Docket.from_data`: keys `cat`, `num`, `date`; a
missing key reads as `None`. -/
structure FromData where
  cat : Option Str
  num : Option Str
  date : Option Str

/-- `Docket.from_data` (`docket_model.py`): missing (or empty, hence falsy)
`cat`/`num`/`date` raises the missing-field error before anything else;
then the category is looked up by name on the uppercased tag and the date
string is parsed; the record is built with an empty `context`. -/
def from_data (data : FromData) : Except DocketError Docket :=
  match data.cat, data.num, data.date with
  | some c, some n, some dt =>
    if c.isEmpty || n.isEmpty || dt.isEmpty then
      Except.error DocketError.missingField
    else
      match categoryByName (upperStr c) with
      | none => Except.error DocketError.keyLookup
      | some cat =>
        match parse_date dt with
        | none => Except.error DocketError.dateParse
        | some d => Except.ok ⟨[], cat, n, d⟩
  | _, _, _ => Except.error DocketError.missingField

/-- Long month name, used by the modelled display-date format. -/
def monthLongName : Nat → Str
  | 1 => str "January"
  | 2 => str "February"
  | 3 => str "March"
  | 4 => str "April"
  | 5 => str "May"
  | 6 => str "June"
  | 7 => str "July"
  | 8 => str "August"
  | 9 => str "September"
  | 10 => str "October"
  | 11 => str "November"
  | 12 => str "December"
  | _ => []

/-- Modelled from the spec: `Docket.formatted_date`, the display date
rendered through the external `DOCKET_DATE_FORMAT` strftime format
(`Month DD, YYYY`). -/
def formatted_date (d : PyDate) : Str :=
  monthLongName d.month ++ ' ' :: pad2 d.day ++ str ", " ++ pad4 d.year

/-- The sentinel rendering used when `serial_text` is empty. -/
def noProperStr : Str := str "No proper string detected."

/-- `Docket.__str__` of the `citation_utils` model:
`f"{category} No. {serial_text.upper()}, {formatted_date}"` when
`serial_text` is truthy (with `use_enum_values=True` the category renders
as its long value), else the sentinel string. -/
def docketStrUtils (d : Docket) : Str :=
  if serial_text d.ids = [] then noProperStr
  else
    d.category.value ++ str " No. " ++ upperStr (serial_text d.ids) ++
      str ", " ++ formatted_date d.docket_date

/-- The `Docket` record of the `citation_docket.regexes` model, which also
stores the short acronym as its own field. -/
structure DocketR where
  context : Str
  short_category : Str
  category : DocketCategory
  ids : Str
  docket_date : PyDate
deriving DecidableEq

/-- `Docket.__str__` of the `citation_docket.regexes` model:
`f"{short_category} {serial_text}, {formatted_date}"` when `serial_text`
is truthy, else the sentinel string. -/
def docketStrShort (d : DocketR) : Str :=
  if serial_text d.ids = [] then noProperStr
  else
    d.short_category ++ ' ' :: serial_text d.ids ++ str ", " ++
      formatted_date d.docket_date

/-- The character class `[a-z0-9-]` of `DB_SERIAL_NUM`. -/
def dbChar (c : Char) : Bool :=
  (str "abcdefghijklmnopqrstuvwxyz0123456789-").contains c

/-- Search semantics of `DB_SERIAL_NUM.search`, i.e. of
`re.search(r"^[a-z0-9-]+$", t)` without the MULTILINE flag: `^` anchors
only at the start of the string, and `$` matches at the end of the string
or just before one final trailing newline.  Hence the search succeeds
exactly when the whole string, or the whole string minus a final newline,
is one or more `[a-z0-9-]` characters. -/
def dbSerialNumSearch (t : Str) : Bool :=
  (!t.isEmpty && t.all dbChar) ||
  (t.getLast? == some '\n' && !t.dropLast.isEmpty && t.dropLast.all dbChar)

/-- `Docket.check_serial_num` (`docket_model.py`):
`DB_SERIAL_NUM.search(text.lower())` is truthy. -/
def check_serial_num (text : Str) : Bool :=
  dbSerialNumSearch (lowerStr text)

/-- Python `str.split("\n")`: the newline-delimited lines of a string. -/
def splitNl : Str → List Str
  | [] => [[]]
  | c :: rest =>
    if c = '\n' then [] :: splitNl rest
    else
      match splitNl rest with
      | [] => [[c]]
      | l :: ls => (c :: l) :: ls

abbrev Caps := List (Nat × Nat × Nat)

inductive RE where
  | eps : RE
  | pred : (Char → Bool) → RE
  | cat : RE → RE → RE
  | alt : RE → RE → RE
  | opt : RE → RE
  | star : RE → RE
  | rep : RE → Nat → Nat → RE
  | group : Nat → RE → RE
  | wb : RE

def isWordChar (c : Char) : Bool := c.isAlphanum || c = '_'

def wordAt (t : Str) (i : Nat) : Bool :=
  match t.get? i with
  | some c => isWordChar c
  | none => false

def wordBoundary (t : Str) (i : Nat) : Bool :=
  wordAt t i != (if i = 0 then false else wordAt t (i - 1))

def mrun (t : Str) : Nat → RE → Nat → Caps →
    (Nat → Caps → Option (Nat × Caps)) → Option (Nat × Caps)
  | 0, _, _, _, _ => none
  | fuel + 1, re, pos, caps, k =>
    match re with
    | .eps => k pos caps
    | .wb => if wordBoundary t pos then k pos caps else none
    | .pred p =>
      match t.get? pos with
      | some c => if p c then k (pos + 1) caps else none
      | none => none
    | .cat a b => mrun t fuel a pos caps (fun p2 c2 => mrun t fuel b p2 c2 k)
    | .alt a b =>
      match mrun t fuel a pos caps k with
      | some r => some r
      | none => mrun t fuel b pos caps k
    | .opt a =>
      match mrun t fuel a pos caps k with
      | some r => some r
      | none => k pos caps
    | .star a =>
      match mrun t fuel a pos caps
          (fun p2 c2 => if p2 = pos then none else mrun t fuel (.star a) p2 c2 k) with
      | some r => some r
      | none => k pos caps
    | .rep a lo hi =>
      match lo with
      | lo' + 1 =>
        mrun t fuel a pos caps (fun p2 c2 => mrun t fuel (.rep a lo' (hi - 1)) p2 c2 k)
      | 0 =>
        match hi with
        | 0 => k pos caps
        | hi' + 1 =>
          match mrun t fuel a pos caps
              (fun p2 c2 => if p2 = pos then none else mrun t fuel (.rep a 0 hi') p2 c2 k) with
          | some r => some r
          | none => k pos caps
    | .group n a => mrun t fuel a pos caps (fun p2 c2 => k p2 ((n, pos, p2) :: c2))

def bigFuel : Nat := 5000

def matchTopK : Nat → Caps → Option (Nat × Caps) := fun e c => some (e, c)

def searchFrom (t : Str) (re : RE) : Nat → Nat → Option (Nat × Nat × Caps)
  | 0, _ => none
  | fuel + 1, pos =>
    if t.length < pos then none
    else
      match mrun t bigFuel re pos [] matchTopK with
      | some (e, caps) => some (pos, e, caps)
      | none => searchFrom t re fuel (pos + 1)

def finditerAux (t : Str) (re : RE) : Nat → Nat → List (Nat × Nat × Caps)
  | 0, _ => []
  | fuel + 1, pos =>
    match searchFrom t re (t.length + 1 - pos) pos with
    | none => []
    | some (s, e, caps) => (s, e, caps) :: finditerAux t re fuel (max e (s + 1))

def finditer (t : Str) (re : RE) : List (Nat × Nat × Caps) :=
  finditerAux t re (t.length + 1) 0

def litChar (c : Char) : RE := .pred (fun x => x.toLower == c.toLower)

def litOf : Str → RE
  | [] => RE.eps
  | c :: rest => RE.cat (litChar c) (litOf rest)

def lits (s : String) : RE := litOf s.data

def altOf : List RE → RE
  | [] => RE.pred (fun _ => false)
  | [r] => r
  | r :: rest => RE.alt r (altOf rest)

def sepClassChar (c : Char) : Bool := c = ',' || c = '.' || c = '-' || pySpace c

def separator : RE := .star (.pred sepClassChar)

def digitDash (c : Char) : Bool := c.isDigit || c = '-'

def digit : RE := RE.cat (RE.rep (RE.pred Char.isDigit) 3 3) (RE.star (RE.pred digitDash))

def acronymAlternatives : List RE :=
  [lits "A", lits "B", lits "P", lits "R", lits "P", lits "J",
   lits "OCA", lits "O.C.A.", lits "SDC", lits "CTA", lits "RTC", lits "CFI",
   lits "RTJ", lits "MTJ", lits "MJ", lits "CJ", lits "CTJ", lits "CAR",
   lits "CCC", lits "CFI", lits "JDRC", lits "OMB", lits "TEL", lits "METC",
   lits "MCTC", lits "MTCC", lits "MTC", lits "HOJ",
   RE.cat (lits "RET") (RE.opt (lits ".")),
   RE.cat (lits "SC") (RE.opt (lits "C")),
   RE.cat (lits "SC") (RE.opt (lits "-PHILJA")),
   RE.cat (lits "CA") (RE.opt (lits "-J")),
   RE.cat (lits "SB") (RE.opt (lits "-J"))]

def acronyms : RE :=
  RE.cat (RE.opt (RE.pred pySpace))
    (RE.cat (altOf acronymAlternatives) (RE.opt (RE.pred pySpace)))

def letter : RE :=
  RE.cat (RE.opt (RE.cat RE.wb acronyms))
    (RE.cat (RE.cat (RE.rep (RE.pred digitDash) 3 3) (RE.star (RE.pred digitDash)))
      (RE.opt acronyms))

def matterClause : RE :=
  RE.cat RE.wb
    (RE.cat (RE.alt (lits "Matter") (lits "Mat.")) (RE.star (RE.pred pySpace)))

def am_key : RE :=
  RE.alt
    (RE.cat (lits "a") (RE.cat separator (RE.cat (lits "m") separator)))
    (RE.cat RE.wb
      (RE.cat (lits "adm")
        (RE.cat (RE.opt (lits "in"))
          (RE.cat (RE.opt (lits "istrative"))
            (RE.cat separator (RE.opt matterClause))))))

def numAM : RE :=
  RE.cat (lits "No")
    (RE.cat (RE.opt (lits "s")) (RE.cat (RE.opt (lits ".")) (RE.star (RE.pred pySpace))))

def am_oca_ipi_num : RE :=
  RE.cat (RE.opt am_key)
    (RE.cat (lits "OCA")
      (RE.cat (RE.star (RE.pred pySpace))
        (RE.cat (RE.alt (lits "IPI") (lits "I.P.I."))
          (RE.cat (RE.star (RE.pred pySpace)) numAM))))

def am_num : RE := RE.cat am_key numAM

def amPhraseG : Nat := 0
def amInitG : Nat := 1
def amMiddleG : Nat := 2
def amInitOptG : Nat := 3
def amMiddleOptG : Nat := 4

def chainSepChar (c : Char) : Bool := c = ',' || c = '-' || c = '&' || pySpace c

def chainSepRun : RE := RE.opt (RE.star (RE.alt (RE.pred chainSepChar) (lits "and")))

def amInitBody : RE := altOf [am_oca_ipi_num, am_num, am_key]

def required : RE :=
  RE.cat (RE.group amInitG amInitBody)
    (RE.cat (RE.group amMiddleG (RE.alt letter digit)) chainSepRun)

def optionalClause : RE :=
  RE.cat (RE.opt (RE.group amInitOptG (RE.alt am_oca_ipi_num am_num)))
    (RE.cat (RE.opt (RE.group amMiddleOptG (RE.alt letter digit))) chainSepRun)

def am_phrases : RE :=
  RE.group amPhraseG (RE.cat required (RE.rep optionalClause 1 3))

/-- Span of the most recent capture of group `n`, Python `match.span(n)`. -/
def capGet (n : Nat) (caps : Caps) : Option (Nat × Nat) :=
  match caps.find? (fun x => x.1 == n) with
  | some (_, s, e) => some (s, e)
  | none => none

/-- End offsets of all captures of group `n` in the match. -/
def capEnds (n : Nat) (caps : Caps) : List Nat :=
  (caps.filter (fun x => x.1 == n)).map (fun x => x.2.2)

/-- Python slice `t[a:b]`. -/
def pySlice (t : Str) (a b : Nat) : Str := (t.drop a).take (b - a)

/-- Strip trailing chaining-separator characters (commas, whitespace,
dashes, ampersands) from a captured span. -/
def stripTrailingSeps (s : Str) : Str :=
  (s.reverse.dropWhile chainSepChar).reverse

/-- Modelled from the spec: the external `find_date_after` collaborator —
resolve the docket date from the text following the match end, across any
intervening separators. -/
def find_date_after (t : Str) (pos : Nat) : Option PyDate :=
  match parseDatePrefix ((t.drop pos).dropWhile chainSepChar) with
  | some (d, _) => some d
  | none => none

/-- One detected occurrence: the mapping produced by `detect` per the spec
contract — `context`, the category (short tag and enumeration value),
`ids`, `docket_date`. -/
structure DetectResult where
  context : Str
  short_category : Str
  category : Str
  ids : Str
  docket_date : PyDate
deriving DecidableEq

/-- Modelled from the spec: occurrence post-processing of
`Constructor.detect` (module not under `src/`) for one regex match —
`context` is the matched phrase span (trailing separator run culled, per
the documented example output), `ids` is the text between the first and
the last serial-token ("middle") capture of the occurrence, and
`docket_date` is resolved by the external date collaborator from the text
after the match; an occurrence with no resolvable date is dropped. -/
def detectBuildAM (t : Str) (m : Nat × Nat × Caps) : Option DetectResult :=
  match m with
  | (s, e, caps) =>
    match capGet amMiddleG caps with
    | none => none
    | some (ms, me) =>
      let idEnd := (capEnds amMiddleOptG caps).foldl max me
      match find_date_after t e with
      | none => none
      | some d =>
        some ⟨stripTrailingSeps (pySlice t s e), DocketCategory.AM.name,
              DocketCategory.AM.value, stripTrailingSeps (pySlice t ms idEnd), d⟩

/-- Modelled from the spec: `Constructor.detect` for the AM category —
scan the text with the composite AM pattern (left-to-right,
non-overlapping) and post-process each occurrence. -/
def detectAM (t : Str) : List DetectResult :=
  (finditer t am_phrases).filterMap (detectBuildAM t)

set_option maxRecDepth 10000

/-- Literal reading of the C1 claim text: `first_id` is the substring of
`ids` before the first separator found when scanning the ordered separator
list (first separator found wins, regardless of whether the preceding
substring is empty), and the whole `ids` when no separator occurs. -/
def claimFirstId (ids : Str) : Str :=
  match docketSeparators.find? (fun sep => (first_exists sep ids).isSome) with
  | some sep => (first_exists sep ids).getD ids
  | none => ids

/-- Amended reading of C1: the first separator in list order whose
preceding substring is non-empty wins; when no separator yields a
non-empty prefix, `first_id` is the whole `ids`. -/
def claimFirstIdAmended (ids : Str) : Str :=
  match docketSeparators.find? (fun sep => !((first_exists sep ids).getD []).isEmpty) with
  | some sep => (first_exists sep ids).getD ids
  | none => ids

theorem firstIdScan_eq_find (l : List Str) (ids : Str) :
    firstIdScan l ids =
      match l.find? (fun sep => !((first_exists sep ids).getD []).isEmpty) with
      | some sep => (first_exists sep ids).getD ids
      | none => ids := by
  induction l with
  | nil => rfl
  | cons sep rest ih =>
    simp only [firstIdScan, List.find?]
    cases h : first_exists sep ids with
    | none => simpa [h] using ih
    | some res =>
      by_cases hres : res = []
      · subst hres
        simpa [h] using ih
      · have hres2 : res.isEmpty = false := by simpa [List.isEmpty_iff] using hres
        simp [h, hres2]
        exact fun hc => absurd hc hres

/-- C1 — counterexample: for `ids = ",138570"` the first separator found in
list order is `","`, whose preceding substring is empty, so the claim's
literal reading yields `""`; the code instead skips the falsy prefix,
finds no further separator, and returns the whole `ids`. -/
theorem c1_counterexample :
    claimFirstId (str ",138570") = ([] : Str) ∧
    first_id (str ",138570") = str ",138570" ∧
    first_id (str ",138570") ≠ claimFirstId (str ",138570") := by decide

/-- C1 (amended): for every `ids`, `first_id` equals the substring before
the first separator in list order whose preceding substring is non-empty
(an empty prefix makes the scan fall through), and equals the whole `ids`
when no separator yields a non-empty prefix; in particular
`first_id "138570, 140024 and 140026" = "138570"` and
`first_id "no-separator-id" = "no-separator-id"`. -/
theorem c1_amended :
    (∀ ids : Str, first_id ids = claimFirstIdAmended ids) ∧
    first_id (str "138570, 140024 and 140026") = str "138570" ∧
    first_id (str "no-separator-id") = str "no-separator-id" :=
  ⟨fun ids => firstIdScan_eq_find docketSeparators ids, by decide, by decide⟩

theorem firstIdScan_ne_nil (l : List Str) (ids : Str) (h : ids ≠ []) :
    firstIdScan l ids ≠ [] := by
  induction l with
  | nil => exact h
  | cons sep rest ih =>
    simp only [firstIdScan]
    cases first_exists sep ids with
    | none => exact ih
    | some res =>
      by_cases hres : res = []
      · simpa [hres] using ih
      · simp [hres]

/-- C9: for every non-empty `ids`, `first_id ids` is non-empty — a
separator whose preceding substring is empty is skipped (falsy walrus
result), and the final fallback returns `ids` itself. -/
theorem c9_first_id_nonempty (ids : Str) (h : ids ≠ []) : first_id ids ≠ [] :=
  firstIdScan_ne_nil docketSeparators ids h

/-- Witness for C9 at `ids = ",138570"` (leading separator skipped). -/
theorem c9_witness : (str ",138570" ≠ ([] : Str)) ∧ first_id (str ",138570") ≠ ([] : Str) :=
  ⟨by decide, c9_first_id_nonempty (str ",138570") (by decide)⟩

theorem firstIdScan_self (l : List Str) (y : Str)
    (h : ∀ sep ∈ l, (first_exists sep y).getD [] = []) : firstIdScan l y = y := by
  induction l with
  | nil => rfl
  | cons sep rest ih =>
    simp only [firstIdScan]
    have hsep := h sep (by simp)
    have hrest : ∀ s ∈ rest, (first_exists s y).getD [] = [] :=
      fun s hs => h s (by simp [hs])
    cases hx : first_exists sep y with
    | none => exact ih hrest
    | some res =>
      have hres : res = [] := by simpa [hx] using hsep
      simpa [hres] using ih hrest

theorem serialAdjust_of_clean_nil (y : Str) (h2 : gr_prefix_clean y = []) :
    serialAdjust y = y := by
  unfold serialAdjust
  by_cases hy : y = [] <;> simp [hy, h2]

/-- C3 — counterexample: normalization is not idempotent on every valid raw
id string.  For `x = "138570&99/100"` the winning separator is `"/"`,
giving `serial_text x = "138570&99"`, but re-normalizing splits on the
later-listed separator `"&"` and yields `"138570"`. -/
theorem c3_counterexample :
    str "138570&99/100" ≠ ([] : Str) ∧
    serial_text (str "138570&99/100") = str "138570&99" ∧
    serial_text (serial_text (str "138570&99/100")) ≠
      serial_text (str "138570&99/100") := by decide

/-- C3 (amended): `serial_text` is idempotent on every raw id string whose
normalized form is stable — i.e. whenever no listed separator occurs in
`serial_text x` with a non-empty substring before it, and no residual
"No."/"Nos." fragment remains to be cleaned. -/
theorem c3_amended (x : Str)
    (h1 : ∀ sep ∈ docketSeparators, (first_exists sep (serial_text x)).getD [] = [])
    (h2 : gr_prefix_clean (serial_text x) = []) :
    serial_text (serial_text x) = serial_text x := by
  have hfi : first_id (serial_text x) = serial_text x :=
    firstIdScan_self docketSeparators (serial_text x) h1
  show serialAdjust (if first_id (serial_text x) = [] then serial_text x
    else first_id (serial_text x)) = serial_text x
  rw [hfi, ite_self]
  exact serialAdjust_of_clean_nil (serial_text x) h2

/-- Witness for C3 (amended) at `x = "138570, 140024 and 140026"`. -/
theorem c3_witness :
    (∀ sep ∈ docketSeparators,
      (first_exists sep (serial_text (str "138570, 140024 and 140026"))).getD [] = []) ∧
    gr_prefix_clean (serial_text (str "138570, 140024 and 140026")) = [] ∧
    serial_text (serial_text (str "138570, 140024 and 140026")) =
      serial_text (str "138570, 140024 and 140026") :=
  ⟨by decide, by decide, c3_amended (str "138570, 140024 and 140026") (by decide) (by decide)⟩

theorem splitNl_append_newline (l : Str) (h : '\n' ∉ l) :
    splitNl (l ++ ['\n']) = [l, []] := by
  induction l with
  | nil => rfl
  | cons c rest ih =>
    have hc : c ≠ '\n' := fun e => h (by simp [e])
    have hrest : '\n' ∉ rest := fun hm => h (by simp [hm])
    show splitNl (c :: (rest ++ ['\n'])) = [c :: rest, []]
    simp only [splitNl, if_neg hc, List.append_eq]
    rw [ih hrest]

theorem dbChar_no_newline (c : Char) (h : dbChar c = true) : c ≠ '\n' := by
  intro e
  subst e
  exact absurd h (by decide)

/-- C10: the database serial-number format check is case-insensitive — it
returns `true` whenever the lowercased text is one or more `[a-z0-9-]`
characters, and returns `false` whenever the lowercased text contains any
other character while having no newline-delimited line made entirely of
`[a-z0-9-]` characters. -/
theorem c10_check_serial_num :
    (∀ s : Str, lowerStr s ≠ [] → (lowerStr s).all dbChar = true →
      check_serial_num s = true) ∧
    (∀ s : Str, (∃ c ∈ lowerStr s, dbChar c = false) →
      (∀ line ∈ splitNl (lowerStr s), line = [] ∨ ∃ c ∈ line, dbChar c = false) →
      check_serial_num s = false) := by
  constructor
  · intro s h1 h2
    have h1e : (lowerStr s).isEmpty = false := by simpa [List.isEmpty_iff] using h1
    simp [check_serial_num, dbSerialNumSearch, h1e, h2]
  · intro s hbad hlines
    set t := lowerStr s with ht
    have hall : t.all dbChar = false := by
      obtain ⟨c, hc, hcf⟩ := hbad
      rcases Bool.eq_false_or_eq_true (t.all dbChar) with h | h
      · rw [List.all_eq_true] at h
        exact absurd (h c hc) (by simp [hcf])
      · exact h
    have hd2 : (t.getLast? == some '\n' && !t.dropLast.isEmpty &&
        t.dropLast.all dbChar) = false := by
      rcases Bool.eq_false_or_eq_true
        (t.getLast? == some '\n' && !t.dropLast.isEmpty && t.dropLast.all dbChar) with h | h
      · exfalso
        simp only [Bool.and_eq_true, beq_iff_eq, Bool.not_eq_true'] at h
        obtain ⟨⟨hlast, hne⟩, hdall⟩ := h
        have hnl : '\n' ∉ t.dropLast := by
          intro hm
          rw [List.all_eq_true] at hdall
          exact absurd rfl (dbChar_no_newline '\n' (hdall '\n' hm))
        have hsplit : t = t.dropLast ++ ['\n'] :=
          (List.dropLast_append_getLast? '\n' (Option.mem_def.mpr hlast)).symm
        have hmem : t.dropLast ∈ splitNl t := by
          rw [hsplit, splitNl_append_newline t.dropLast hnl]
          simp
        rcases hlines t.dropLast hmem with h0 | ⟨c, hcm, hcf⟩
        · rw [h0] at hne
          exact absurd hne (by decide)
        · rw [List.all_eq_true] at hdall
          exact absurd (hdall c hcm) (by simp [hcf])
      · exact h
    show dbSerialNumSearch t = false
    unfold dbSerialNumSearch
    rw [hall, hd2]
    simp

/-- Witness for C10: `"AB-12"` lowercases to a conforming serial, while
`"ab c"` has a space and no conforming line. -/
theorem c10_witness :
    check_serial_num (str "AB-12") = true ∧ check_serial_num (str "ab c") = false :=
  ⟨c10_check_serial_num.1 (str "AB-12") (by decide) (by decide),
   c10_check_serial_num.2 (str "ab c") (by decide) (by decide)⟩

/-- C4 — counterexample: constructing a record with an empty (or
whitespace-only) `ids` succeeds — the `ids: str = Field(...)` declaration
carries no emptiness constraint, so nothing fails validation. -/
theorem c4_counterexample :
    mkDocket (str "ctx") (str "Administrative Matter") ([] : Str) 1992 2 25 =
      Except.ok ⟨str "ctx", DocketCategory.AM, [], ⟨1992, 2, 25⟩⟩ ∧
    mkDocket (str "ctx") (str "Administrative Matter") (str " ") 1992 2 25 =
      Except.ok ⟨str "ctx", DocketCategory.AM, str " ", ⟨1992, 2, 25⟩⟩ := by decide

/-- C4 (amended): construction fails exactly when the category is not a
recognized enumeration value or the docket date is not a valid calendar
date; the `ids` field (empty or whitespace-only included) is never
validated. -/
theorem c4_amended (context category ids : Str) (y m d : Nat) :
    (∃ e, mkDocket context category ids y m d = Except.error e) ↔
      (parseCategoryValue category = none ∨ validDate y m d = false) := by
  unfold mkDocket
  cases h : parseCategoryValue category with
  | none => simp
  | some cat =>
    rcases Bool.eq_false_or_eq_true (validDate y m d) with hv | hv <;>
      simp [hv]

/-- C5: the key-value constructor succeeds on
`{cat: "AM", num: "RTJ-12-2317", date: "Jan 1, 2000"}` with
`serial_text = "RTJ-12-2317"` and the parsed date `2000-01-01`, and raises
the missing-field error whenever any of the three keys is absent. -/
theorem c5_from_data :
    (from_data ⟨some (str "AM"), some (str "RTJ-12-2317"), some (str "Jan 1, 2000")⟩ =
      Except.ok ⟨[], DocketCategory.AM, str "RTJ-12-2317", ⟨2000, 1, 1⟩⟩) ∧
    serial_text (str "RTJ-12-2317") = str "RTJ-12-2317" ∧
    (∀ data : FromData, data.cat = none ∨ data.num = none ∨ data.date = none →
      from_data data = Except.error DocketError.missingField) := by
  refine ⟨by decide, by decide, ?_⟩
  intro data h
  obtain ⟨oc, onum, od⟩ := data
  rcases h with h | h | h <;> subst h
  · cases onum <;> cases od <;> rfl
  · cases oc <;> cases od <;> rfl
  · cases oc <;> cases onum <;> rfl

/-- Witness for C5: omitting `num` raises the missing-field error. -/
theorem c5_witness :
    from_data ⟨some (str "AM"), none, some (str "Jan 1, 2000")⟩ =
      Except.error DocketError.missingField :=
  c5_from_data.2.2 ⟨some (str "AM"), none, some (str "Jan 1, 2000")⟩ (Or.inr (Or.inl rfl))

theorem digitChar_inj (a b : Nat) (ha : a < 10) (hb : b < 10)
    (h : Nat.digitChar a = Nat.digitChar b) : a = b := by
  interval_cases a <;> interval_cases b <;> revert h <;> decide

theorem digitChar_fixed (a : Nat) (ha : a < 10) :
    pySpace (Nat.digitChar a) = false ∧
      Char.toLower (Nat.digitChar a) = Nat.digitChar a := by
  interval_cases a <;> exact ⟨by decide, by decide⟩

theorem looseNorm_iso (d : PyDate) : looseNorm (isoFormat d) = isoFormat d := by
  have h1 : ∀ k : Nat, pySpace (Nat.digitChar (k % 10)) = false :=
    fun k => (digitChar_fixed _ (Nat.mod_lt _ (by norm_num))).1
  have h2 : ∀ k : Nat, Char.toLower (Nat.digitChar (k % 10)) = Nat.digitChar (k % 10) :=
    fun k => (digitChar_fixed _ (Nat.mod_lt _ (by norm_num))).2
  have h3 : pySpace '-' = false := by decide
  have h4 : Char.toLower '-' = '-' := by decide
  simp [looseNorm, isoFormat, pad4, pad2, h1, h2, h3, h4]

theorem daysInMonth_le (y m : Nat) : daysInMonth y m ≤ 31 := by
  unfold daysInMonth
  split_ifs <;> norm_num

theorem two_digit_inj (a b : Nat) (ha : a < 100) (hb : b < 100)
    (h1 : a / 10 % 10 = b / 10 % 10) (h2 : a % 10 = b % 10) : a = b := by omega

theorem four_digit_inj (a b : Nat) (ha : a < 10000) (hb : b < 10000)
    (h1 : a / 1000 % 10 = b / 1000 % 10) (h2 : a / 100 % 10 = b / 100 % 10)
    (h3 : a / 10 % 10 = b / 10 % 10) (h4 : a % 10 = b % 10) : a = b := by omega

theorem isoFormat_inj (d1 d2 : PyDate)
    (h1 : validDate d1.year d1.month d1.day = true)
    (h2 : validDate d2.year d2.month d2.day = true)
    (h : isoFormat d1 = isoFormat d2) : d1 = d2 := by
  obtain ⟨y1, m1, dd1⟩ := d1
  obtain ⟨y2, m2, dd2⟩ := d2
  simp only [validDate, decide_eq_true_eq] at h1 h2
  obtain ⟨-, hy1, -, hm1, -, hd1⟩ := h1
  obtain ⟨-, hy2, -, hm2, -, hd2⟩ := h2
  have hd1b : dd1 < 100 := by have := daysInMonth_le y1 m1; omega
  have hd2b : dd2 < 100 := by have := daysInMonth_le y2 m2; omega
  simp only [isoFormat, pad4, pad2, List.cons_append, List.nil_append,
    List.cons.injEq, and_true] at h
  obtain ⟨e1, e2, e3, e4, -, e5, e6, -, e7, e8⟩ := h
  have n1 := digitChar_inj _ _ (Nat.mod_lt _ (by norm_num)) (Nat.mod_lt _ (by norm_num)) e1
  have n2 := digitChar_inj _ _ (Nat.mod_lt _ (by norm_num)) (Nat.mod_lt _ (by norm_num)) e2
  have n3 := digitChar_inj _ _ (Nat.mod_lt _ (by norm_num)) (Nat.mod_lt _ (by norm_num)) e3
  have n4 := digitChar_inj _ _ (Nat.mod_lt _ (by norm_num)) (Nat.mod_lt _ (by norm_num)) e4
  have n5 := digitChar_inj _ _ (Nat.mod_lt _ (by norm_num)) (Nat.mod_lt _ (by norm_num)) e5
  have n6 := digitChar_inj _ _ (Nat.mod_lt _ (by norm_num)) (Nat.mod_lt _ (by norm_num)) e6
  have n7 := digitChar_inj _ _ (Nat.mod_lt _ (by norm_num)) (Nat.mod_lt _ (by norm_num)) e7
  have n8 := digitChar_inj _ _ (Nat.mod_lt _ (by norm_num)) (Nat.mod_lt _ (by norm_num)) e8
  have hy : y1 = y2 := four_digit_inj y1 y2 (by omega) (by omega) n1 n2 n3 n4
  have hm : m1 = m2 := two_digit_inj m1 m2 (by omega) (by omega) n5 n6
  have hd : dd1 = dd2 := two_digit_inj dd1 dd2 hd1b hd2b n7 n8
  simp [hy, hm, hd]

theorem catName_looseEq (a b : DocketCategory) :
    looseNorm a.name = looseNorm b.name ↔ a = b := by
  cases a <;> cases b <;> decide

/-- C2 (amended): two records are `__eq__`-equal exactly when they have the
same category, case/whitespace-insensitively equal `first_id`, and the same
calendar date — `context` plays no role, and the raw `ids` text matters
only through its derived `first_id`. -/
theorem c2_amended (a b : Docket)
    (ha : validDate a.docket_date.year a.docket_date.month a.docket_date.day = true)
    (hb : validDate b.docket_date.year b.docket_date.month b.docket_date.day = true) :
    docketEq a b = true ↔
      (a.category = b.category ∧
       looseNorm (first_id a.ids) = looseNorm (first_id b.ids) ∧
       a.docket_date = b.docket_date) := by
  unfold docketEq is_eq
  simp only [Bool.and_eq_true, beq_iff_eq]
  constructor
  · rintro ⟨⟨h1, h2⟩, h3⟩
    refine ⟨(catName_looseEq a.category b.category).mp h1, h2, ?_⟩
    rw [looseNorm_iso a.docket_date, looseNorm_iso b.docket_date] at h3
    exact isoFormat_inj a.docket_date b.docket_date ha hb h3
  · rintro ⟨h1, h2, h3⟩
    exact ⟨⟨(catName_looseEq a.category b.category).mpr h1, h2⟩, by rw [h3]⟩

/-- C2 — counterexample: two records that differ only in the verbatim `ids`
text are not equal when the differing text changes the derived `first_id`. -/
theorem c2_counterexample :
    (Docket.mk (str "x") DocketCategory.AM (str "123, 456") ⟨2000, 1, 1⟩).context =
      (Docket.mk (str "x") DocketCategory.AM (str "789") ⟨2000, 1, 1⟩).context ∧
    (Docket.mk (str "x") DocketCategory.AM (str "123, 456") ⟨2000, 1, 1⟩).category =
      (Docket.mk (str "x") DocketCategory.AM (str "789") ⟨2000, 1, 1⟩).category ∧
    (Docket.mk (str "x") DocketCategory.AM (str "123, 456") ⟨2000, 1, 1⟩).docket_date =
      (Docket.mk (str "x") DocketCategory.AM (str "789") ⟨2000, 1, 1⟩).docket_date ∧
    (Docket.mk (str "x") DocketCategory.AM (str "123, 456") ⟨2000, 1, 1⟩).ids ≠
      (Docket.mk (str "x") DocketCategory.AM (str "789") ⟨2000, 1, 1⟩).ids ∧
    docketEq (Docket.mk (str "x") DocketCategory.AM (str "123, 456") ⟨2000, 1, 1⟩)
      (Docket.mk (str "x") DocketCategory.AM (str "789") ⟨2000, 1, 1⟩) = false := by decide

/-- Witness for C2 (amended): records with different `context` and different
raw `ids` but the same category, loosely-equal `first_id`, and equal date
compare equal. -/
theorem c2_witness :
    docketEq ⟨str "x", DocketCategory.AM, str "138570, 140024", ⟨1992, 2, 25⟩⟩
      ⟨str "y", DocketCategory.AM, str "138570 & 999", ⟨1992, 2, 25⟩⟩ = true :=
  (c2_amended ⟨str "x", DocketCategory.AM, str "138570, 140024", ⟨1992, 2, 25⟩⟩
    ⟨str "y", DocketCategory.AM, str "138570 & 999", ⟨1992, 2, 25⟩⟩
    (by decide) (by decide)).mpr ⟨rfl, by decide, rfl⟩

/-- C6: the AM composite pattern is the required leading clause followed by
1 to 3 repetitions of the optional repeated clause (at most 4 chained
serial-token clauses per occurrence); the required clause starts with the
initiator group whose ordered alternatives are the alias-qualified OCA-IPI
clause, then the keyword-plus-Number-marker clause, then the bare keyword
clause; and ordered alternation means the first alternative is tried first
by the matcher. -/
theorem c6_am_pattern_shape :
    am_phrases = RE.group amPhraseG (RE.cat required (RE.rep optionalClause 1 3)) ∧
    (∃ middlePart, required = RE.cat (RE.group amInitG amInitBody) middlePart) ∧
    amInitBody = RE.alt am_oca_ipi_num (RE.alt am_num am_key) ∧
    (∀ (fuel : Nat) (t : Str) (pos : Nat) (caps : Caps)
      (k : Nat → Caps → Option (Nat × Caps)),
      mrun t (fuel + 1) amInitBody pos caps k =
        match mrun t fuel am_oca_ipi_num pos caps k with
        | some r => some r
        | none => mrun t fuel (RE.alt am_num am_key) pos caps k) := by
  exact ⟨rfl, ⟨RE.cat (RE.group amMiddleG (RE.alt letter digit)) chainSepRun, rfl⟩,
    rfl, fun _ _ _ _ _ => rfl⟩

/-- Literal reading of the C7 claim's rendering template:
`"{category} {serial_text}, {formatted_date}"`, with the sentinel when
`serial_text` is empty. -/
def claimRender (d : Docket) : Str :=
  if serial_text d.ids = [] then noProperStr
  else
    d.category.value ++ ' ' :: serial_text d.ids ++ str ", " ++
      formatted_date d.docket_date

/-- C7 — counterexample: the `citation_utils` rendering inserts a `"No. "`
marker and uppercases `serial_text`, so it differs from the claim's
template on a record with a lowercase serial. -/
theorem c7_counterexample :
    serial_text (str "rtj-1") ≠ ([] : Str) ∧
    docketStrUtils ⟨[], DocketCategory.AM, str "rtj-1", ⟨2000, 1, 1⟩⟩ ≠
      claimRender ⟨[], DocketCategory.AM, str "rtj-1", ⟨2000, 1, 1⟩⟩ := by decide

/-- C7 (amended): when `serial_text` is non-empty the `citation_utils`
rendering is `"{category} No. {SERIAL_TEXT uppercased}, {formatted_date}"`
and the `citation_docket.regexes` rendering is
`"{short_category} {serial_text}, {formatted_date}"`; when `serial_text`
is empty both render the fixed sentinel `"No proper string detected."`. -/
theorem c7_amended (d : Docket) (r : DocketR) :
    (serial_text d.ids ≠ [] →
      docketStrUtils d = d.category.value ++ str " No. " ++
        upperStr (serial_text d.ids) ++ str ", " ++ formatted_date d.docket_date) ∧
    (serial_text d.ids = [] → docketStrUtils d = noProperStr) ∧
    (serial_text r.ids ≠ [] →
      docketStrShort r = r.short_category ++ ' ' :: serial_text r.ids ++
        str ", " ++ formatted_date r.docket_date) ∧
    (serial_text r.ids = [] → docketStrShort r = noProperStr) := by
  refine ⟨fun h => ?_, fun h => ?_, fun h => ?_, fun h => ?_⟩ <;>
    simp [docketStrUtils, docketStrShort, h]

/-- Witness for C7 (amended) on a concrete record of each model. -/
theorem c7_witness :
    serial_text (str "P-88-198") ≠ ([] : Str) ∧
    docketStrUtils ⟨[], DocketCategory.AM, str "P-88-198", ⟨1992, 2, 25⟩⟩ =
      DocketCategory.AM.value ++ str " No. " ++ upperStr (serial_text (str "P-88-198")) ++
        str ", " ++ formatted_date ⟨1992, 2, 25⟩ ∧
    docketStrShort ⟨[], str "AM", DocketCategory.AM, str "P-88-198", ⟨1992, 2, 25⟩⟩ =
      str "AM" ++ ' ' :: serial_text (str "P-88-198") ++ str ", " ++
        formatted_date ⟨1992, 2, 25⟩ :=
  ⟨by decide,
   (c7_amended ⟨[], DocketCategory.AM, str "P-88-198", ⟨1992, 2, 25⟩⟩
     ⟨[], str "AM", DocketCategory.AM, str "P-88-198", ⟨1992, 2, 25⟩⟩).1 (by decide),
   (c7_amended ⟨[], DocketCategory.AM, str "P-88-198", ⟨1992, 2, 25⟩⟩
     ⟨[], str "AM", DocketCategory.AM, str "P-88-198", ⟨1992, 2, 25⟩⟩).2.2.1 (by decide)⟩

/-- C8: searching
`"A.M. No. P-88-198, February 25, 1992, 206 SCRA 491."` with the AM
category's search operation yields exactly one occurrence, with category
the AM enumeration value, context `"A.M. No. P-88-198"`, ids `"P-88-198"`,
first_id `"P-88-198"`, and date 1992-02-25. -/
theorem c8_am_search :
    detectAM (str "A.M. No. P-88-198, February 25, 1992, 206 SCRA 491.") =
      [⟨str "A.M. No. P-88-198", str "AM", str "Administrative Matter",
        str "P-88-198", ⟨1992, 2, 25⟩⟩] ∧
    first_id (str "P-88-198") = str "P-88-198" := by decide
